import Mathlib

/-!
Verification of the `ts-nes` sample-file shape library.

The repository contains two Python modules with an abstract `Shape` class,
concrete `Circle` and `Rectangle` classes, and a `ShapeCalculator`
aggregator:

* `src/ts/sample-files/shapes.py` — shapes carry only a name (no color),
  constructors perform NO validation, `ShapeCalculator` offers
  `add_shape`, `total_area`, `total_perimeter` and `get_statistics`, and a
  `MathUtils` class offers `gcd`.  Embedded below in namespace `Shapes`.
* `src/ts/sample-files/enhanced-shapes.py` — shapes additionally carry a
  color tag, constructors validate positivity and raise `ValueError`
  otherwise, `ShapeCalculator` offers `add_shape`, `total_area`,
  `total_perimeter`, `get_largest_shape` and `filter_by_color`.
  Embedded below in namespace `EnhancedShapes`.

Embedding conventions:
* Python floats are idealised as `ℚ`; the constant `math.pi` is embedded
  as `mathPi`, the exact rational value of the IEEE-754 double `math.pi`.
* Python constructors may raise, so `__init__` is embedded as
  `Except String _` (the error message is the `ValueError` text).
* Python builtins that can raise are embedded as `Except`-valued
  functions (`pyDiv` for `/` with `ZeroDivisionError`, `pyMax`/`pyMin`
  for `max`/`min` on a possibly-empty list); `sum` is `pySum`
  (left fold from 0, as CPython), and `max(iterable, key=...)` is
  `pyMaxBy` (keeps the current winner, replaces it only on a strictly
  greater key, hence returns the first maximum — CPython semantics).
* The Python integer modulo operator (sign follows the divisor) is embedded as
  `pymod`; `abs` is `Int.natAbs` cast back to `ℤ`.
* A Python dict with a fixed key set is a structure; a key that is absent
  in some branches gets an `Option` field (`none` = key absent).
-/

/-- The exact rational value of the IEEE-754 double `math.pi`
(`884279719003555 / 2^48`). -/
def mathPi : ℚ := 884279719003555 / 281474976710656

/-- Python `sum(xs)`: left fold of `+` starting from `0`. -/
def pySum (l : List ℚ) : ℚ := l.foldl (· + ·) 0

/-- Python float division `x / y`: raises `ZeroDivisionError` on `y = 0`. -/
def pyDiv (x y : ℚ) : Except String ℚ :=
  if y = 0 then .error "ZeroDivisionError: float division by zero"
  else .ok (x / y)

/-- The loop inside CPython `max(iterable, key=k)`: scan the list keeping
the current winner, replacing it only when the key is strictly greater
(so the first maximum is returned). -/
def pyMaxBy {α : Type} (key : α → ℚ) (best : α) : List α → α
  | [] => best
  | s :: rest => pyMaxBy key (if key s > key best then s else best) rest

/-- Python `max(xs)` on a list of floats: raises `ValueError` on the empty
list, otherwise folds keeping the larger value. -/
def pyMax : List ℚ → Except String ℚ
  | [] => .error "ValueError: max() arg is an empty sequence"
  | x :: xs => .ok (pyMaxBy id x xs)

/-- The loop inside CPython `min(xs)`: replace the current winner only on a
strictly smaller element. -/
def pyMinFold (best : ℚ) : List ℚ → ℚ
  | [] => best
  | y :: ys => pyMinFold (if y < best then y else best) ys

/-- Python `min(xs)` on a list of floats: raises `ValueError` on the empty
list. -/
def pyMin : List ℚ → Except String ℚ
  | [] => .error "ValueError: min() arg is an empty sequence"
  | x :: xs => .ok (pyMinFold x xs)

/-- Python `a % b` on integers: the remainder takes the sign of the
divisor (floored modulo).  For `b = 0` Python raises; the only use in the
source (`MathUtils.gcd`) is guarded by `while b:`, and we give the
(unreachable) `b = 0` case the value `0`. -/
def pymod (a b : ℤ) : ℤ :=
  if 0 ≤ b then a % b else -((-a) % (-b))

/-- Round a rational to the nearest integer, ties to even (the rounding
used when a float is formatted with `:.2f`). -/
def roundHalfEven (q : ℚ) : ℤ :=
  let f : ℤ := q.floor
  let r : ℚ := q - f
  if r < 1 / 2 then f
  else if 1 / 2 < r then f + 1
  else if f % 2 = 0 then f else f + 1

/-- Left-pad a two-digit fraction part with `0`. -/
def padTwo (n : ℕ) : String :=
  if n < 10 then "0" ++ toString n else toString n

/-- Python two-decimal float formatting (format spec .2f): the value
rendered with exactly two digits after the decimal point. -/
def formatTwoDecimals (q : ℚ) : String :=
  let sign : String := if q < 0 then "-" else ""
  let a : ℚ := if q < 0 then -q else q
  let n : ℕ := (roundHalfEven (a * 100)).toNat
  sign ++ toString (n / 100) ++ "." ++ padTwo (n % 100)

namespace Shapes

/-- The closed set of concrete `Shape` subclasses in
`src/ts/sample-files/shapes.py`: `Circle(radius)` and
`Rectangle(width, height)`.  Shapes in this module carry no color. -/
inductive Shape : Type
  | circle (radius : ℚ)
  | rectangle (width height : ℚ)
deriving DecidableEq, Repr

/-- Embeds `Circle.__init__` in `shapes.py`: stores the radius; performs no
validation, so it never raises. -/
def Circle.init (radius : ℚ) : Except String Shape :=
  .ok (.circle radius)

/-- Embeds `Rectangle.__init__` in `shapes.py`: stores width and height; performs
no validation, so it never raises. -/
def Rectangle.init (width height : ℚ) : Except String Shape :=
  .ok (.rectangle width height)

/-- Embeds `self.name`, set by each subclass `__init__` via `super().__init__`. -/
def Shape.name : Shape → String
  | .circle _ => "Circle"
  | .rectangle _ _ => "Rectangle"

/-- Embeds `Circle.area` / `Rectangle.area` in `shapes.py`. -/
def Shape.area : Shape → ℚ
  | .circle r => mathPi * r ^ 2
  | .rectangle w h => w * h

/-- Embeds `Circle.perimeter` / `Rectangle.perimeter` in `shapes.py`. -/
def Shape.perimeter : Shape → ℚ
  | .circle r => 2 * mathPi * r
  | .rectangle w h => 2 * (w + h)

/-- Embeds `Shape.__str__` in `shapes.py`: the name, then area and perimeter
each formatted to two decimals.  No color appears in the rendering of
this module, whose shapes carry no color at all. -/
def Shape.str (s : Shape) : String :=
  s.name ++ ": area=" ++ formatTwoDecimals s.area ++
    ", perimeter=" ++ formatTwoDecimals s.perimeter

/-- The result dict of `ShapeCalculator.get_statistics`.  The empty-input
branch returns only the first three keys; the `Option` fields are `none`
exactly when the corresponding key is absent. -/
structure Statistics : Type where
  count : ℕ
  total_area : ℚ
  total_perimeter : ℚ
  average_area : Option ℚ
  average_perimeter : Option ℚ
  max_area : Option ℚ
  min_area : Option ℚ
deriving DecidableEq, Repr

/-- Embeds `ShapeCalculator` in `shapes.py`: holds the list `self.shapes`. -/
structure ShapeCalculator : Type where
  shapes : List Shape
deriving DecidableEq, Repr

/-- Embeds `ShapeCalculator.add_shape`: `self.shapes.append(shape)`. -/
def ShapeCalculator.add_shape (c : ShapeCalculator) (s : Shape) : ShapeCalculator :=
  ⟨c.shapes ++ [s]⟩

/-- Embeds `ShapeCalculator.total_area`: `sum(shape.area() for shape in self.shapes)`. -/
def ShapeCalculator.total_area (c : ShapeCalculator) : ℚ :=
  pySum (c.shapes.map Shape.area)

/-- Embeds `ShapeCalculator.total_perimeter`: `sum(shape.perimeter() for shape in self.shapes)`. -/
def ShapeCalculator.total_perimeter (c : ShapeCalculator) : ℚ :=
  pySum (c.shapes.map Shape.perimeter)

/-- Embeds `ShapeCalculator.get_statistics` in `shapes.py`: on an empty
collection returns the three-key dict; otherwise builds the seven-key
dict, where the divisions and `max`/`min` may in principle raise (hence
the `Except`). -/
def ShapeCalculator.get_statistics (c : ShapeCalculator) : Except String Statistics :=
  if c.shapes.isEmpty then
    .ok ⟨0, 0, 0, none, none, none, none⟩
  else
    let areas := c.shapes.map Shape.area
    let perimeters := c.shapes.map Shape.perimeter
    do
      let avgA ← pyDiv (pySum areas) (areas.length : ℚ)
      let avgP ← pyDiv (pySum perimeters) (perimeters.length : ℚ)
      let mx ← pyMax areas
      let mn ← pyMin areas
      pure ⟨c.shapes.length, pySum areas, pySum perimeters,
            some avgA, some avgP, some mx, some mn⟩

/-- Embeds `MathUtils.gcd` in `shapes.py`:
`while b: a, b = b, a % b` followed by `return abs(a)`. -/
def MathUtils.gcd (a b : ℤ) : ℤ :=
  if h : b = 0 then (a.natAbs : ℤ)
  else MathUtils.gcd b (pymod a b)
termination_by b.natAbs
decreasing_by
  simp only [pymod]
  split
  · rename_i hb
    have h0 : 0 < b := lt_of_le_of_ne hb (Ne.symm h)
    have h1 : 0 ≤ a % b := Int.emod_nonneg a h
    have h2 : a % b < b := Int.emod_lt_of_pos a h0
    omega
  · rename_i hb
    push_neg at hb
    have hne : -b ≠ 0 := by omega
    have h1 : 0 ≤ -a % -b := Int.emod_nonneg (-a) hne
    have h2 : -a % -b < -b := Int.emod_lt_of_pos (-a) (by omega)
    omega

end Shapes

namespace EnhancedShapes

/-- The closed set of concrete `Shape` subclasses in
`src/ts/sample-files/enhanced-shapes.py`: `Circle(radius, color)` and
`Rectangle(width, height, color)`. -/
inductive Shape : Type
  | circle (radius : ℚ) (color : String)
  | rectangle (width height : ℚ) (color : String)
deriving DecidableEq, Repr

/-- Embeds `Circle.__init__` in `enhanced-shapes.py`: raises
`ValueError("Radius must be positive")` when `radius <= 0`. -/
def Circle.init (radius : ℚ) (color : String) : Except String Shape :=
  if radius ≤ 0 then .error "Radius must be positive"
  else .ok (.circle radius color)

/-- Embeds `Rectangle.__init__` in `enhanced-shapes.py`: raises
`ValueError("Width and height must be positive")` when
`width <= 0 or height <= 0`. -/
def Rectangle.init (width height : ℚ) (color : String) : Except String Shape :=
  if width ≤ 0 ∨ height ≤ 0 then .error "Width and height must be positive"
  else .ok (.rectangle width height color)

/-- Embeds `self.name`, set by each subclass `__init__` via `super().__init__`. -/
def Shape.name : Shape → String
  | .circle _ _ => "Circle"
  | .rectangle _ _ _ => "Rectangle"

/-- Embeds `self.color`, stored by `Shape.__init__`. -/
def Shape.color : Shape → String
  | .circle _ c => c
  | .rectangle _ _ c => c

/-- Embeds `Circle.area` / `Rectangle.area` in `enhanced-shapes.py`. -/
def Shape.area : Shape → ℚ
  | .circle r _ => mathPi * r ^ 2
  | .rectangle w h _ => w * h

/-- Embeds `Circle.perimeter` / `Rectangle.perimeter` in `enhanced-shapes.py`. -/
def Shape.perimeter : Shape → ℚ
  | .circle r _ => 2 * mathPi * r
  | .rectangle w h _ => 2 * (w + h)

/-- Embeds `Shape.__str__` in `enhanced-shapes.py`: the name, the color in
parentheses, then area and perimeter each formatted to two decimals. -/
def Shape.str (s : Shape) : String :=
  s.name ++ " (" ++ s.color ++ "): area=" ++ formatTwoDecimals s.area ++
    ", perimeter=" ++ formatTwoDecimals s.perimeter

/-- Embeds `ShapeCalculator` in `enhanced-shapes.py`: holds the list `self.shapes`. -/
structure ShapeCalculator : Type where
  shapes : List Shape
deriving DecidableEq, Repr

/-- Embeds `ShapeCalculator.add_shape`: `self.shapes.append(shape)`. -/
def ShapeCalculator.add_shape (c : ShapeCalculator) (s : Shape) : ShapeCalculator :=
  ⟨c.shapes ++ [s]⟩

/-- Embeds `ShapeCalculator.total_area`: `sum(shape.area() for shape in self.shapes)`. -/
def ShapeCalculator.total_area (c : ShapeCalculator) : ℚ :=
  pySum (c.shapes.map Shape.area)

/-- Embeds `ShapeCalculator.total_perimeter`: `sum(shape.perimeter() for shape in self.shapes)`. -/
def ShapeCalculator.total_perimeter (c : ShapeCalculator) : ℚ :=
  pySum (c.shapes.map Shape.perimeter)

/-- Embeds `ShapeCalculator.get_largest_shape`:
`return None` on an empty collection, otherwise
`max(self.shapes, key=lambda s: s.area())`. -/
def ShapeCalculator.get_largest_shape (c : ShapeCalculator) : Option Shape :=
  match c.shapes with
  | [] => none
  | s :: rest => some (pyMaxBy Shape.area s rest)

/-- Embeds `ShapeCalculator.filter_by_color`:
`[shape for shape in self.shapes if shape.color == color]`. -/
def ShapeCalculator.filter_by_color (c : ShapeCalculator) (color : String) : List Shape :=
  c.shapes.filter (fun s => s.color == color)

end EnhancedShapes

/-- Embeds `m` is the first-encountered maximum of `l` under `key`: `l` splits as
`l1 ++ m :: l2` where everything before `m` has a strictly smaller key and
everything after has a key at most `key m`. -/
def IsFirstMaxBy {α : Type} (key : α → ℚ) (l : List α) (m : α) : Prop :=
  ∃ l1 l2, l = l1 ++ m :: l2 ∧ (∀ x ∈ l1, key x < key m) ∧ (∀ x ∈ l2, key x ≤ key m)

theorem pySum_eq_sum (l : List ℚ) : pySum l = l.sum := by
  have h : ∀ (l : List ℚ) (a : ℚ), l.foldl (· + ·) a = a + l.sum := by
    intro l
    induction l with
    | nil => intro a; simp
    | cons x xs ih => intro a; simp only [List.foldl, ih, List.sum_cons]; ring
  simpa using h l 0

theorem key_le_pyMaxBy {α : Type} (key : α → ℚ) (best : α) (l : List α) :
    key best ≤ key (pyMaxBy key best l) := by
  induction l generalizing best with
  | nil => simp [pyMaxBy]
  | cons s rest ih =>
    simp only [pyMaxBy]
    split
    · rename_i hgt
      exact le_trans (le_of_lt hgt) (ih s)
    · exact ih best

theorem pyMaxBy_isFirstMax {α : Type} (key : α → ℚ) (best : α) (l : List α) :
    IsFirstMaxBy key (best :: l) (pyMaxBy key best l) := by
  induction l generalizing best with
  | nil => exact ⟨[], [], rfl, by simp, by simp⟩
  | cons s rest ih =>
    simp only [pyMaxBy]
    split
    · rename_i hgt
      obtain ⟨l1, l2, heq, h1, h2⟩ := ih s
      refine ⟨best :: l1, l2, ?_, ?_, h2⟩
      · rw [List.cons_append, ← heq]
      · intro x hx
        rcases List.mem_cons.mp hx with hx | hx
        · subst hx
          calc key x < key s := hgt
            _ ≤ key (pyMaxBy key s rest) := key_le_pyMaxBy key s rest
        · exact h1 x hx
    · rename_i hng
      have hle : key s ≤ key best := le_of_not_lt hng
      obtain ⟨l1, l2, heq, h1, h2⟩ := ih best
      cases l1 with
      | nil =>
        simp only [List.nil_append] at heq
        obtain ⟨hm, hl2⟩ := List.cons.inj heq
        refine ⟨[], s :: l2, ?_, by simp, ?_⟩
        · simp [← hm, ← hl2]
        · intro x hx
          rcases List.mem_cons.mp hx with hx | hx
          · subst hx; rw [← hm]; exact hle
          · exact h2 x hx
      | cons y l1t =>
        simp only [List.cons_append] at heq
        obtain ⟨hy, hrest⟩ := List.cons.inj heq
        have hbm : key best < key (pyMaxBy key best rest) := by
          have := h1 y (List.mem_cons_self y l1t)
          rwa [← hy] at this
        refine ⟨best :: s :: l1t, l2, ?_, ?_, h2⟩
        · exact congrArg (fun t => best :: s :: t) hrest
        · intro x hx
          rcases List.mem_cons.mp hx with hx | hx
          · subst hx; exact hbm
          · rcases List.mem_cons.mp hx with hx | hx
            · subst hx; exact lt_of_le_of_lt hle hbm
            · exact h1 x (List.mem_cons_of_mem y hx)

theorem isFirstMaxBy_mem {α : Type} {key : α → ℚ} {l : List α} {m : α}
    (h : IsFirstMaxBy key l m) : m ∈ l := by
  obtain ⟨l1, l2, heq, -, -⟩ := h
  rw [heq]
  exact List.mem_append_right l1 (List.mem_cons_self m l2)

theorem isFirstMaxBy_le {α : Type} {key : α → ℚ} {l : List α} {m : α}
    (h : IsFirstMaxBy key l m) : ∀ x ∈ l, key x ≤ key m := by
  obtain ⟨l1, l2, heq, h1, h2⟩ := h
  intro x hx
  rw [heq] at hx
  rcases List.mem_append.mp hx with hx | hx
  · exact le_of_lt (h1 x hx)
  · rcases List.mem_cons.mp hx with hx | hx
    · subst hx; exact le_refl _
    · exact h2 x hx

theorem pyMinFold_mem (best : ℚ) (l : List ℚ) : pyMinFold best l ∈ best :: l := by
  induction l generalizing best with
  | nil => simp [pyMinFold]
  | cons y ys ih =>
    simp only [pyMinFold]
    split
    · rcases List.mem_cons.mp (ih y) with h | h
      · simp [h]
      · exact List.mem_cons_of_mem _ (List.mem_cons_of_mem _ h)
    · rcases List.mem_cons.mp (ih best) with h | h
      · simp [h]
      · exact List.mem_cons_of_mem _ (List.mem_cons_of_mem _ h)

theorem pyMinFold_le (best : ℚ) (l : List ℚ) : ∀ x ∈ best :: l, pyMinFold best l ≤ x := by
  induction l generalizing best with
  | nil => simp [pyMinFold]
  | cons y ys ih =>
    have hb : ∀ b : ℚ, pyMinFold b ys ≤ b := fun b => ih b b (List.mem_cons_self b ys)
    intro x hx
    simp only [pyMinFold]
    split
    · rename_i hlt
      rcases List.mem_cons.mp hx with hx | hx
      · rw [hx]; exact le_trans (hb y) (le_of_lt hlt)
      · rcases List.mem_cons.mp hx with hx | hx
        · rw [hx]; exact hb y
        · exact ih y x (List.mem_cons_of_mem y hx)
    · rename_i hnlt
      have hyb : best ≤ y := le_of_not_lt hnlt
      rcases List.mem_cons.mp hx with hx | hx
      · rw [hx]; exact hb best
      · rcases List.mem_cons.mp hx with hx | hx
        · rw [hx]; exact le_trans (hb best) hyb
        · exact ih best x (List.mem_cons_of_mem best hx)

theorem pymod_eq_sub_mul (a b : ℤ) : ∃ q, pymod a b = a - b * q := by
  unfold pymod
  split
  · exact ⟨a / b, Int.emod_def a b⟩
  · refine ⟨(-a) / (-b), ?_⟩
    rw [Int.emod_def (-a) (-b)]
    ring

theorem int_gcd_sub_mul (a b q : ℤ) : Int.gcd b (a - b * q) = Int.gcd a b := by
  apply Nat.dvd_antisymm
  · have h1 : (↑(Int.gcd b (a - b * q)) : ℤ) ∣ b := Int.gcd_dvd_left
    have h2 : (↑(Int.gcd b (a - b * q)) : ℤ) ∣ a - b * q := Int.gcd_dvd_right
    have h3 : (↑(Int.gcd b (a - b * q)) : ℤ) ∣ a := by
      have h4 := dvd_add h2 (Dvd.dvd.mul_right h1 q)
      simpa using h4
    exact Int.ofNat_dvd.mp (Int.dvd_gcd h3 h1)
  · have h1 : (↑(Int.gcd a b) : ℤ) ∣ a := Int.gcd_dvd_left
    have h2 : (↑(Int.gcd a b) : ℤ) ∣ b := Int.gcd_dvd_right
    have h3 : (↑(Int.gcd a b) : ℤ) ∣ a - b * q :=
      dvd_sub h1 (Dvd.dvd.mul_right h2 q)
    exact Int.ofNat_dvd.mp (Int.dvd_gcd h2 h3)

theorem mathutils_gcd_eq_gcd (a b : ℤ) : Shapes.MathUtils.gcd a b = (Int.gcd a b : ℤ) := by
  induction a, b using Shapes.MathUtils.gcd.induct with
  | case1 a =>
    rw [Shapes.MathUtils.gcd]
    simp [Int.gcd_zero_right]
  | case2 a b hb ih =>
    rw [Shapes.MathUtils.gcd, dif_neg hb, ih]
    obtain ⟨q, hq⟩ := pymod_eq_sub_mul a b
    rw [hq, int_gcd_sub_mul]

theorem shapes_get_statistics_cons (s : Shapes.Shape) (rest : List Shapes.Shape) :
    Shapes.ShapeCalculator.get_statistics ⟨s :: rest⟩ =
      .ok ⟨(s :: rest).length,
           pySum ((s :: rest).map Shapes.Shape.area),
           pySum ((s :: rest).map Shapes.Shape.perimeter),
           some (pySum ((s :: rest).map Shapes.Shape.area) / ((s :: rest).length : ℚ)),
           some (pySum ((s :: rest).map Shapes.Shape.perimeter) / ((s :: rest).length : ℚ)),
           some (pyMaxBy id (Shapes.Shape.area s) (rest.map Shapes.Shape.area)),
           some (pyMinFold (Shapes.Shape.area s) (rest.map Shapes.Shape.area))⟩ := by
  have hne : ((rest.length : ℚ) + 1) ≠ 0 := by positivity
  simp only [Shapes.ShapeCalculator.get_statistics, List.isEmpty_cons, Bool.false_eq_true,
    if_false, List.map_cons, List.length_cons, List.length_map, Nat.cast_add, Nat.cast_one,
    pyDiv, pyMax, pyMin, if_neg hne]
  rfl

/-- C1, counterexample: the claim says constructing a Circle with radius
at most 0 fails with an InvalidParameter error, but `Circle.__init__` in
`shapes.py` (one of the cited code places) performs no validation:
`Circle(0)` succeeds and stores radius 0. -/
theorem C1_counterexample_shapes_circle_accepts_zero :
    Shapes.Circle.init 0 = Except.ok (Shapes.Shape.circle 0) ∧
    (Shapes.Circle.init 0).isOk = true :=
  ⟨rfl, rfl⟩

/-- C1 (amended): in `enhanced-shapes.py` construction validates as the
claim states — a Circle succeeds exactly when its radius is positive, a
Rectangle exactly when width and height are positive, and Circle(0),
Circle(-1), Rectangle(0,5), Rectangle(5,-2) each fail with the
ValueError message — while in `shapes.py` the constructors perform no
validation and succeed on every argument, storing it unchanged. -/
theorem C1_construction_validation_amended (r w h : ℚ) (c : String) :
    ((EnhancedShapes.Circle.init r c).isOk = true ↔ 0 < r) ∧
    ((EnhancedShapes.Rectangle.init w h c).isOk = true ↔ 0 < w ∧ 0 < h) ∧
    EnhancedShapes.Circle.init 0 c = .error "Radius must be positive" ∧
    EnhancedShapes.Circle.init (-1) c = .error "Radius must be positive" ∧
    EnhancedShapes.Rectangle.init 0 5 c = .error "Width and height must be positive" ∧
    EnhancedShapes.Rectangle.init 5 (-2) c = .error "Width and height must be positive" ∧
    Shapes.Circle.init r = .ok (Shapes.Shape.circle r) ∧
    Shapes.Rectangle.init w h = .ok (Shapes.Shape.rectangle w h) := by
  refine ⟨?_, ?_, ?_, ?_, ?_, ?_, rfl, rfl⟩
  · unfold EnhancedShapes.Circle.init
    split
    · rename_i hr
      exact iff_of_false (by simp [Except.isOk, Except.toBool]) (not_lt.mpr hr)
    · rename_i hr
      push_neg at hr
      exact iff_of_true rfl hr
  · unfold EnhancedShapes.Rectangle.init
    split
    · rename_i hwh
      refine iff_of_false (by simp [Except.isOk, Except.toBool]) ?_
      rcases hwh with hw | hh
      · exact fun hc => absurd hc.1 (not_lt.mpr hw)
      · exact fun hc => absurd hc.2 (not_lt.mpr hh)
    · rename_i hwh
      push_neg at hwh
      exact iff_of_true rfl hwh
  · unfold EnhancedShapes.Circle.init
    rw [if_pos le_rfl]
  · unfold EnhancedShapes.Circle.init
    rw [if_pos (by norm_num : (-1 : ℚ) ≤ 0)]
  · unfold EnhancedShapes.Rectangle.init
    rw [if_pos (Or.inl le_rfl)]
  · unfold EnhancedShapes.Rectangle.init
    rw [if_pos (Or.inr (by norm_num : (-2 : ℚ) ≤ 0))]

/-- C2: `get_statistics` on a non-empty collection returns the record
whose count is the number of elements, whose totals are the sums of the
areas and perimeters, whose averages are those totals divided by the
count, and whose max/min areas are the maximum and minimum element
areas; on the empty collection it returns count 0, totals 0 and no
average/max/min fields (encoded as `none`), and in particular performs
no division. -/
theorem C2_get_statistics_spec (s : Shapes.Shape) (rest : List Shapes.Shape) :
    Shapes.ShapeCalculator.get_statistics ⟨[]⟩ =
      .ok ⟨0, 0, 0, none, none, none, none⟩ ∧
    ∃ st : Shapes.Statistics,
      Shapes.ShapeCalculator.get_statistics ⟨s :: rest⟩ = .ok st ∧
      st.count = (s :: rest).length ∧
      st.total_area = ((s :: rest).map Shapes.Shape.area).sum ∧
      st.total_perimeter = ((s :: rest).map Shapes.Shape.perimeter).sum ∧
      st.average_area = some (st.total_area / (st.count : ℚ)) ∧
      st.average_perimeter = some (st.total_perimeter / (st.count : ℚ)) ∧
      (∃ mx, st.max_area = some mx ∧ mx ∈ (s :: rest).map Shapes.Shape.area ∧
        ∀ x ∈ (s :: rest).map Shapes.Shape.area, x ≤ mx) ∧
      (∃ mn, st.min_area = some mn ∧ mn ∈ (s :: rest).map Shapes.Shape.area ∧
        ∀ x ∈ (s :: rest).map Shapes.Shape.area, mn ≤ x) := by
  refine ⟨rfl, _, shapes_get_statistics_cons s rest, rfl, pySum_eq_sum _, pySum_eq_sum _,
    rfl, rfl, ?_, ?_⟩
  · refine ⟨pyMaxBy id (Shapes.Shape.area s) (rest.map Shapes.Shape.area), rfl, ?_, ?_⟩
    · have h := isFirstMaxBy_mem
        (pyMaxBy_isFirstMax id (Shapes.Shape.area s) (rest.map Shapes.Shape.area))
      simpa using h
    · intro x hx
      have h := isFirstMaxBy_le
        (pyMaxBy_isFirstMax id (Shapes.Shape.area s) (rest.map Shapes.Shape.area))
        x (by simpa using hx)
      simpa using h
  · refine ⟨pyMinFold (Shapes.Shape.area s) (rest.map Shapes.Shape.area), rfl, ?_, ?_⟩
    · simpa using pyMinFold_mem (Shapes.Shape.area s) (rest.map Shapes.Shape.area)
    · intro x hx
      exact pyMinFold_le _ _ x (by simpa using hx)

/-- C3: on a non-empty collection `get_largest_shape` returns `some` of
the first-encountered element of maximum area (everything before it has
strictly smaller area, everything after it no larger area), and on the
empty collection it returns `none` rather than an error. -/
theorem C3_get_largest_shape_spec (s : EnhancedShapes.Shape)
    (rest : List EnhancedShapes.Shape) :
    EnhancedShapes.ShapeCalculator.get_largest_shape ⟨[]⟩ = none ∧
    ∃ m, EnhancedShapes.ShapeCalculator.get_largest_shape ⟨s :: rest⟩ = some m ∧
      m ∈ s :: rest ∧
      (∀ x ∈ s :: rest, EnhancedShapes.Shape.area x ≤ EnhancedShapes.Shape.area m) ∧
      IsFirstMaxBy EnhancedShapes.Shape.area (s :: rest) m := by
  have h := pyMaxBy_isFirstMax EnhancedShapes.Shape.area s rest
  exact ⟨rfl, pyMaxBy EnhancedShapes.Shape.area s rest, rfl,
    isFirstMaxBy_mem h, isFirstMaxBy_le h, h⟩

/-- C4: for positive parameters construction succeeds and the geometric
formulas hold — a Circle of radius r has area pi times r squared and
perimeter 2 pi r, a Rectangle of width w and height h has area w times h
and perimeter 2 (w + h) — where pi is the embedded value of
`math.pi`. -/
theorem C4_geometry_formulas (r w h : ℚ) (c : String)
    (hr : 0 < r) (hw : 0 < w) (hh : 0 < h) :
    (EnhancedShapes.Circle.init r c = .ok (.circle r c) ∧
      (EnhancedShapes.Shape.circle r c).area = mathPi * r ^ 2 ∧
      (EnhancedShapes.Shape.circle r c).perimeter = 2 * mathPi * r) ∧
    (EnhancedShapes.Rectangle.init w h c = .ok (.rectangle w h c) ∧
      (EnhancedShapes.Shape.rectangle w h c).area = w * h ∧
      (EnhancedShapes.Shape.rectangle w h c).perimeter = 2 * (w + h)) := by
  refine ⟨⟨?_, rfl, rfl⟩, ?_, rfl, rfl⟩
  · unfold EnhancedShapes.Circle.init
    rw [if_neg (not_le.mpr hr)]
  · unfold EnhancedShapes.Rectangle.init
    rw [if_neg ?_]
    rw [not_or]
    exact ⟨not_le.mpr hw, not_le.mpr hh⟩

/-- C4, witness at r = 1, w = 2, h = 3. -/
theorem C4_geometry_formulas_witness :
    (EnhancedShapes.Circle.init 1 "white" = .ok (.circle 1 "white") ∧
      (EnhancedShapes.Shape.circle 1 "white").area = mathPi * 1 ^ 2 ∧
      (EnhancedShapes.Shape.circle 1 "white").perimeter = 2 * mathPi * 1) ∧
    (EnhancedShapes.Rectangle.init 2 3 "white" = .ok (.rectangle 2 3 "white") ∧
      (EnhancedShapes.Shape.rectangle 2 3 "white").area = 2 * 3 ∧
      (EnhancedShapes.Shape.rectangle 2 3 "white").perimeter = 2 * (2 + 3)) :=
  C4_geometry_formulas 1 2 3 "white" (by norm_num) (by norm_num) (by norm_num)

/-- C5: `total_area` and `total_perimeter` equal the sum of the element
areas and perimeters respectively, are 0 on the empty collection, and on
the two-element collection Circle(1), Rectangle(2,3) the total area is
pi + 6 (pi being the embedded `math.pi`). -/
theorem C5_totals_spec (shapes : List EnhancedShapes.Shape) :
    EnhancedShapes.ShapeCalculator.total_area ⟨shapes⟩ =
      (shapes.map EnhancedShapes.Shape.area).sum ∧
    EnhancedShapes.ShapeCalculator.total_perimeter ⟨shapes⟩ =
      (shapes.map EnhancedShapes.Shape.perimeter).sum ∧
    EnhancedShapes.ShapeCalculator.total_area ⟨[]⟩ = 0 ∧
    EnhancedShapes.ShapeCalculator.total_perimeter ⟨[]⟩ = 0 ∧
    ∃ c1 r1, EnhancedShapes.Circle.init 1 "white" = .ok c1 ∧
      EnhancedShapes.Rectangle.init 2 3 "white" = .ok r1 ∧
      EnhancedShapes.ShapeCalculator.total_area ⟨[c1, r1]⟩ = mathPi + 6 := by
  refine ⟨pySum_eq_sum _, pySum_eq_sum _, rfl, rfl,
    .circle 1 "white", .rectangle 2 3 "white", ?_, ?_, ?_⟩
  · unfold EnhancedShapes.Circle.init
    rw [if_neg (by norm_num)]
  · unfold EnhancedShapes.Rectangle.init
    rw [if_neg (by norm_num)]
  · simp only [EnhancedShapes.ShapeCalculator.total_area, pySum, List.map_cons,
      List.map_nil, List.foldl, EnhancedShapes.Shape.area]
    ring

/-- C6: `filter_by_color` returns exactly the subsequence of elements
whose color equals the argument, in the original order: it is the list
filter by that predicate, membership in the result is equivalent to
membership plus color equality, and the result is a sublist (hence
order-preserving, possibly empty) of the collection. -/
theorem C6_filter_by_color_spec (shapes : List EnhancedShapes.Shape) (col : String) :
    EnhancedShapes.ShapeCalculator.filter_by_color ⟨shapes⟩ col =
      shapes.filter (fun s => s.color == col) ∧
    (∀ s, s ∈ EnhancedShapes.ShapeCalculator.filter_by_color ⟨shapes⟩ col ↔
      s ∈ shapes ∧ EnhancedShapes.Shape.color s = col) ∧
    (EnhancedShapes.ShapeCalculator.filter_by_color ⟨shapes⟩ col).Sublist shapes := by
  refine ⟨rfl, ?_, List.filter_sublist shapes⟩
  intro s
  simp [EnhancedShapes.ShapeCalculator.filter_by_color, List.mem_filter]

/-- C7: the aggregation operations cannot fail.  `total_area`,
`total_perimeter` and `filter_by_color` are embedded as total functions
(their Python bodies contain no raising operation), `get_largest_shape`
returns the `none` sentinel instead of raising on the empty collection,
and `get_statistics` — the one operation whose body contains fallible
operations (two divisions, `max`, `min`) — returns `ok` on every
collection, i.e. its division-by-zero and empty-sequence error branches
are unreachable. -/
theorem C7_aggregation_no_errors (l : List Shapes.Shape) (es : EnhancedShapes.Shape)
    (el : List EnhancedShapes.Shape) (col : String) :
    (∃ st, Shapes.ShapeCalculator.get_statistics ⟨l⟩ = .ok st) ∧
    EnhancedShapes.ShapeCalculator.get_largest_shape ⟨[]⟩ = none ∧
    (∃ m, EnhancedShapes.ShapeCalculator.get_largest_shape ⟨es :: el⟩ = some m) ∧
    EnhancedShapes.ShapeCalculator.total_area ⟨el⟩ =
      pySum (el.map EnhancedShapes.Shape.area) ∧
    EnhancedShapes.ShapeCalculator.total_perimeter ⟨el⟩ =
      pySum (el.map EnhancedShapes.Shape.perimeter) ∧
    EnhancedShapes.ShapeCalculator.filter_by_color ⟨el⟩ col =
      el.filter (fun s => s.color == col) := by
  refine ⟨?_, rfl, ⟨_, rfl⟩, rfl, rfl, rfl⟩
  cases l with
  | nil => exact ⟨_, rfl⟩
  | cons s rest => exact ⟨_, shapes_get_statistics_cons s rest⟩

unseal Rat.mul Rat.add Rat.sub Rat.inv in
/-- C8, counterexample: the claim says every shape renders as
name, color in parentheses, then the two-decimal area and perimeter; but
`Shape.__str__` in `shapes.py` (one of the cited code places) has no
color segment at all — Rectangle(2,3) renders without any parenthesised
color. -/
theorem C8_counterexample_shapes_str_no_color :
    Shapes.Shape.str (Shapes.Shape.rectangle 2 3) =
      "Rectangle: area=6.00, perimeter=10.00" ∧
    Shapes.Shape.str (Shapes.Shape.rectangle 2 3) ≠
      "Rectangle (white): area=6.00, perimeter=10.00" := by
  constructor
  · decide
  · decide

/-- C8 (amended): in `enhanced-shapes.py` a shape renders as the claim
states — name, color in parentheses, then area and perimeter to two
decimals — while in `shapes.py` shapes carry no color and render as
name, then area and perimeter to two decimals, with no color segment. -/
theorem C8_str_rendering_amended (s : EnhancedShapes.Shape) (t : Shapes.Shape) :
    EnhancedShapes.Shape.str s =
      EnhancedShapes.Shape.name s ++ " (" ++ EnhancedShapes.Shape.color s ++
        "): area=" ++ formatTwoDecimals (EnhancedShapes.Shape.area s) ++
        ", perimeter=" ++ formatTwoDecimals (EnhancedShapes.Shape.perimeter s) ∧
    Shapes.Shape.str t =
      Shapes.Shape.name t ++ ": area=" ++ formatTwoDecimals (Shapes.Shape.area t) ++
        ", perimeter=" ++ formatTwoDecimals (Shapes.Shape.perimeter t) :=
  ⟨rfl, rfl⟩

/-- C9: `add_shape` appends the given shape at the end of the sequence
and changes nothing else — the new sequence is the old one followed by
the shape, so the first elements are exactly the old sequence (in
order), the length grows by one, and the last element is the added
shape.  No validation is performed (the operation is total). -/
theorem C9_add_shape_appends (l : List EnhancedShapes.Shape) (s : EnhancedShapes.Shape) :
    (EnhancedShapes.ShapeCalculator.add_shape ⟨l⟩ s).shapes = l ++ [s] ∧
    ((EnhancedShapes.ShapeCalculator.add_shape ⟨l⟩ s).shapes).take l.length = l ∧
    ((EnhancedShapes.ShapeCalculator.add_shape ⟨l⟩ s).shapes).length = l.length + 1 ∧
    ((EnhancedShapes.ShapeCalculator.add_shape ⟨l⟩ s).shapes).getLast? = some s := by
  refine ⟨rfl, List.take_left l [s], ?_, List.getLast?_concat l⟩
  simp [EnhancedShapes.ShapeCalculator.add_shape]

/-- C10: `MathUtils.gcd` terminates on all integer inputs (it is a
well-founded recursion below) and returns the non-negative greatest
common divisor of the absolute values of its arguments; in particular it
returns 0 when both arguments are 0. -/
theorem C10_gcd_spec (a b : ℤ) :
    Shapes.MathUtils.gcd a b = (Int.gcd a b : ℤ) ∧
    0 ≤ Shapes.MathUtils.gcd a b ∧
    Shapes.MathUtils.gcd a b = ((Nat.gcd a.natAbs b.natAbs : ℕ) : ℤ) ∧
    Shapes.MathUtils.gcd 0 0 = 0 := by
  have h := mathutils_gcd_eq_gcd a b
  refine ⟨h, ?_, ?_, ?_⟩
  · rw [h]
    exact Int.natCast_nonneg _
  · rw [h]
    rfl
  · simpa using mathutils_gcd_eq_gcd 0 0
